import Mathlib

/-!
Verification development for the ABBA (Asynchronous Binary Byzantine Agreement)
engine of the `sn_consensus` repository, a shallow embedding of
`src/src/mvba/abba/mod.rs` together with the message and justification types it
uses.

Modelling conventions:
* `usize` round counters become `Nat`; Rust's panicking unsigned subtraction
  (`round - 1` with `round = 0` in debug builds) is modelled by `usizeSub`,
  which returns `none` on underflow, and the whole message pipeline runs in
  `Option`, with `none` standing for a panic (an `unwrap` failure or an
  underflow).  `some (res, s')` is a normal return of `Result` `res` with
  post-state `s'`.
* BLS cryptography is modelled symbolically: a signature share is the pair of
  its signer and the byte string it signs, an aggregate signature records the
  byte string it certifies, and verification compares byte strings.  The
  canonical signing byte strings (`bincode::serialize` of labelled tuples in
  the source) are modelled by the inductive `SignBytes`, whose constructors
  are injective exactly as the encoding of distinct labelled tuples is.
  `SignBytes.garbage` stands for the junk aggregate that
  `combine_signatures` yields when handed shares over differing byte strings;
  it verifies against nothing.
* `HashMap<NodeId, _>` accumulators become association lists with insertion
  order; `Vec` becomes `List`.  The `Broadcaster` is an external sink: a
  broadcast is modelled by its only state-relevant effect, the self-delivery
  `receive_message(self.i, msg)` performed by `Abba::broadcast`.  The
  recursion `receive_message → broadcast → receive_message` is bounded in the
  source (a self-delivered main-vote is never processed because
  `round + 1 ≠ r`, a self-delivered decision is already latched), so it is
  modelled with a fuel parameter large enough for every cascade.
* The secret key share of node `i` signs byte string `b` by producing the
  share `⟨i, b⟩`; the `PublicKeySet` is represented by the only datum the
  engine reads from it, its `threshold`.
-/

namespace SnConsensus

/-- Node identifiers, as in `src/src/mvba/mod.rs` (`NodeId`). -/
abbrev NodeId := Nat

/-- Opaque 32-byte content digest (`Hash32`), modelled as a number. -/
abbrev Hash32 := Nat

/-- Opaque proposal payload (`Proposal`), an uninterpreted byte vector. -/
abbrev Proposal := List Nat

/-- Binary pre-vote value (`abba::message::Value`). -/
inductive Value : Type
  | zero
  | one
deriving DecidableEq, Repr

/-- Main-vote value (`abba::message::MainVoteValue`): a binary value or abstain. -/
inductive MainVoteValue : Type
  | value (v : Value)
  | abstain
deriving DecidableEq, Repr

/-- `MainVoteValue::zero()` in the source. -/
def MainVoteValue.zero : MainVoteValue := .value .zero

/-- `MainVoteValue::one()` in the source. -/
def MainVoteValue.one : MainVoteValue := .value .one

/-- Canonical signing byte strings.  The source serializes labelled tuples:
`("pre-vote", round, value)`, `("main-vote", round, value)` in
`Abba::pre_vote_bytes_to_sign` / `Abba::main_vote_bytes_to_sign`, and
`("c-ready", proposer, digest)` in `vcbc::c_ready_bytes_to_sign`.  Distinct
labelled tuples have distinct serializations, which the inductive captures.
`garbage` is the byte string certified by no honest signing domain (see
`combine_signatures`). -/
inductive SignBytes : Type
  | preVote (round : Nat) (v : Value)
  | mainVote (round : Nat) (v : MainVoteValue)
  | cReady (proposer : NodeId) (digest : Hash32)
  | garbage
deriving DecidableEq, Repr

/-- A BLS signature share (`blsttc::SignatureShare`), symbolically the signer
together with the byte string signed. -/
structure SignatureShare : Type where
  signer : NodeId
  bytes : SignBytes
deriving DecidableEq, Repr

/-- An aggregate BLS signature (`blsttc::Signature`), symbolically the byte
string it certifies. -/
structure Signature : Type where
  bytes : SignBytes
deriving DecidableEq, Repr

/-- The public key set (`blsttc::PublicKeySet`), reduced to the only datum the
engine reads from it: its threshold. -/
structure PublicKeySet : Type where
  threshold : Nat
deriving DecidableEq, Repr

/-- `pub_key_set.public_key_share(sender).verify(share, bytes)`: a share
verifies under `sender`'s share public key iff it was produced by `sender`'s
secret share over exactly these bytes. -/
def verify_share (sender : NodeId) (share : SignatureShare) (bytes : SignBytes) : Bool :=
  share.signer == sender && share.bytes == bytes

/-- `pub_key_set.public_key().verify(sig, bytes)`: an aggregate signature
verifies under the collective public key iff it certifies exactly these
bytes. -/
def verify_sig (sig : Signature) (bytes : SignBytes) : Bool :=
  sig.bytes == bytes

/-- `vcbc::c_ready_bytes_to_sign(proposer, digest)` as called by
`abba/mod.rs` (serialized `("c-ready", proposer, digest)` tuple of the vcbc
module this `mod.rs` compiles against). -/
def c_ready_bytes_to_sign (proposer : NodeId) (digest : Hash32) : SignBytes :=
  .cReady proposer digest

/-- `vcbc::message::Action` as used by `abba/mod.rs` (the `Final` variant
carries the digest and the aggregate certificate, exactly as in
`src/src/mvba/vcbc/message.rs`). -/
inductive VcbcAction : Type
  | send (m : Proposal)
  | ready (digest : Hash32) (share : SignatureShare)
  | final (digest : Hash32) (sig : Signature)
  | request
  | answer (m : Proposal) (sig : Signature)
deriving DecidableEq, Repr

/-- `vcbc::message::Message` in the shape `abba/mod.rs` consumes it:
`abba/mod.rs` reads `c_final.proposer` and `c_final.action`
(`check_message`, lines 392-418), so the message carries the proposer it
concerns together with its action. -/
structure VcbcMessage : Type where
  proposer : NodeId
  action : VcbcAction
deriving DecidableEq, Repr

/-- `abba::message::PreVoteJustification`, reconstructed from its uses in
`abba/mod.rs`: `FirstRoundZero`, `FirstRoundOne(c_final)`, `Hard(sig)`,
`Soft(sig)`. -/
inductive PreVoteJustification : Type
  | firstRoundZero
  | firstRoundOne (cFinal : VcbcMessage)
  | hard (sig : Signature)
  | soft (sig : Signature)
deriving DecidableEq, Repr

/-- `abba::message::MainVoteJustification`: `NoAbstain(sig)` or
`Abstain(Box<just0>, Box<just1>)` (boxes are immaterial here). -/
inductive MainVoteJustification : Type
  | noAbstain (sig : Signature)
  | abstain (just0 just1 : PreVoteJustification)
deriving DecidableEq, Repr

/-- `abba::message::PreVoteAction`. -/
structure PreVoteAction : Type where
  round : Nat
  value : Value
  justification : PreVoteJustification
  sig_share : SignatureShare
deriving DecidableEq, Repr

/-- `abba::message::MainVoteAction`. -/
structure MainVoteAction : Type where
  round : Nat
  value : MainVoteValue
  justification : MainVoteJustification
  sig_share : SignatureShare
deriving DecidableEq, Repr

/-- `abba::message::DecisionAction`: the aggregated main-vote that a party
decides on.  Its `value` field has type `MainVoteValue` in the source
(`check_message` verifies it with `main_vote_bytes_to_sign(action.round,
&action.value)` and `receive_message` builds it from a `MainVoteAction`'s
`value`). -/
structure DecisionAction : Type where
  round : Nat
  value : MainVoteValue
  sig : Signature
deriving DecidableEq, Repr

/-- `abba::message::Action`: the three ABBA message kinds. -/
inductive MsgAction : Type
  | preVote (a : PreVoteAction)
  | mainVote (a : MainVoteAction)
  | decision (a : DecisionAction)
deriving DecidableEq, Repr

/-- `abba::message::Message` as `abba/mod.rs` constructs it
(`Message { action: ... }`). -/
structure Message : Type where
  action : MsgAction
deriving DecidableEq, Repr

/-- The error taxonomy of `src/src/mvba/error.rs` restricted to the variants
`abba/mod.rs` produces.  Dynamic parts of the formatted strings are elided;
the static prefix identifies each error site. -/
inductive Error : Type
  | invalidMessage (reason : String)
  | generic (reason : String)
deriving DecidableEq, Repr

/-- Rust `usize` subtraction: panics (here `none`) on underflow. -/
def usizeSub (a b : Nat) : Option Nat :=
  if b ≤ a then some (a - b) else none

/-- The ABBA engine state (`struct Abba`, lines 25-35 of `abba/mod.rs`).
`sec_key_share` is determined by `i` in the symbolic signature model, and the
`broadcaster` is an external sink, so neither is part of the state. -/
structure Abba : Type where
  i : NodeId
  j : NodeId
  r : Nat
  decided_value : Option DecisionAction
  pub_key_set : PublicKeySet
  round_pre_votes : List (List (NodeId × PreVoteAction))
  round_main_votes : List (List (NodeId × MainVoteAction))
deriving DecidableEq, Repr

/-- `Abba::new(self_id, proposer, pub_key_set, sec_key_share, broadcaster)`. -/
def Abba.new (self_id proposer : NodeId) (pub_key_set : PublicKeySet) : Abba :=
  { i := self_id
    j := proposer
    r := 1
    decided_value := none
    pub_key_set := pub_key_set
    round_pre_votes := []
    round_main_votes := [] }

/-- `Abba::threshold()`: `pub_key_set.threshold() + 1`. -/
def threshold (s : Abba) : Nat :=
  s.pub_key_set.threshold + 1

/-- `Abba::pre_vote_bytes_to_sign(round, v)`: serialized
`("pre-vote", round, v)`. -/
def pre_vote_bytes_to_sign (round : Nat) (v : Value) : SignBytes :=
  .preVote round v

/-- `Abba::main_vote_bytes_to_sign(round, v)`: serialized
`("main-vote", round, v)`. -/
def main_vote_bytes_to_sign (round : Nat) (v : MainVoteValue) : SignBytes :=
  .mainVote round v

/-- `PublicKeySet::combine_signatures` on the shares of an accumulator:
fails without more than `threshold` shares; with enough shares all over the
same byte string it yields the aggregate over that string, and with mixed
byte strings it interpolates junk (`garbage`), which verifies against
nothing. -/
def combine_signatures (pks : PublicKeySet) (shares : List (NodeId × SignatureShare)) :
    Except Error Signature :=
  match shares with
  | [] => .error (.generic "not enough signature shares")
  | (_, sh) :: rest =>
    if shares.length < pks.threshold + 1 then
      .error (.generic "not enough signature shares")
    else if rest.all (fun p => p.2.bytes == sh.bytes) then
      .ok ⟨sh.bytes⟩
    else
      .ok ⟨.garbage⟩

/-- `HashMap::get` on an accumulator. -/
def bucket_get {α : Type} (bucket : List (NodeId × α)) (n : NodeId) : Option α :=
  (bucket.find? (fun p => p.1 == n)).map (fun p => p.2)

/-- The `while self.round_x_votes.len() < round { push(HashMap::new()) }`
loop of `Abba::get_mut_pre_votes_by_round` / `get_mut_main_votes_by_round`. -/
def grow_buckets {β : Type} (l : List (List β)) (round : Nat) : List (List β) :=
  l ++ List.replicate (round - l.length) []

/-- `Abba::get_pre_votes_by_round(round)`: `round_pre_votes.get(round - 1)`.
The outer `Option` is the `round - 1` underflow panic, the inner one the
vector lookup. -/
def get_pre_votes_by_round (s : Abba) (round : Nat) :
    Option (Option (List (NodeId × PreVoteAction))) :=
  (usizeSub round 1).map (fun idx => s.round_pre_votes.get? idx)

/-- `Abba::get_main_votes_by_round(round)`: `round_main_votes.get(round - 1)`. -/
def get_main_votes_by_round (s : Abba) (round : Nat) :
    Option (Option (List (NodeId × MainVoteAction))) :=
  (usizeSub round 1).map (fun idx => s.round_main_votes.get? idx)

/-- `Abba::check_message(sender, msg)` (lines 356-542): the pure validation
pass over an inbound message, in source order.  `none` models the `usize`
underflow panic of `action.round - 1` / `self.r - 1`. -/
def check_message (s : Abba) (sender : NodeId) (msg : Message) :
    Option (Except Error Unit) :=
  match msg.action with
  | .preVote action =>
    -- check the validity of the S-signature share on message (ID, pre-vote, r, b)
    if verify_share sender action.sig_share (pre_vote_bytes_to_sign action.round action.value) then
      match action.justification with
      | .firstRoundZero =>
        if action.round ≠ 1 then
          some (.error (.invalidMessage "invalid round. expected 1"))
        else if action.value ≠ .zero then
          some (.error (.invalidMessage "initial value should be zero"))
        else
          some (.ok ())
      | .firstRoundOne cFinal =>
        if action.round ≠ 1 then
          some (.error (.invalidMessage "invalid round. expected 1"))
        else if s.j ≠ cFinal.proposer then
          some (.error (.invalidMessage "invalid sender"))
        else
          match cFinal.action with
          | .final digest sig =>
            if verify_sig sig (c_ready_bytes_to_sign cFinal.proposer digest) then
              if action.value ≠ .one then
                some (.error (.invalidMessage "initial value should be one"))
              else
                some (.ok ())
            else
              some (.error (.invalidMessage "invalid signature for the VCBC proposal"))
          | _ =>
            some (.error (.invalidMessage "invalid action. expected c_final"))
      | .hard sig =>
        -- S-threshold signature for (ID, pre-vote, r - 1, b)
        match usizeSub action.round 1 with
        | none => none
        | some prev =>
          if verify_sig sig (pre_vote_bytes_to_sign prev action.value) then
            some (.ok ())
          else
            some (.error (.invalidMessage "invalid hard-vote justification"))
      | .soft sig =>
        -- S-threshold signature for (ID, main-vote, r - 1, abstain);
        -- note the source uses `self.r - 1` here, not `action.round - 1`.
        match usizeSub s.r 1 with
        | none => none
        | some prev =>
          if verify_sig sig (main_vote_bytes_to_sign prev .abstain) then
            some (.ok ())
          else
            some (.error (.invalidMessage "invalid soft-vote justification"))
    else
      some (.error (.invalidMessage "invalid signature share"))
  | .mainVote action =>
    if verify_share sender action.sig_share (main_vote_bytes_to_sign action.round action.value) then
      match action.justification with
      | .noAbstain sig =>
        match action.value with
        | .value v =>
          if verify_sig sig (pre_vote_bytes_to_sign action.round v) then
            some (.ok ())
          else
            some (.error (.invalidMessage "invalid main-vote justification"))
        | .abstain =>
          some (.error (.invalidMessage "no-abstain justifications should come with no-abstain value"))
      | .abstain just0 just1 =>
        if action.value ≠ .abstain then
          some (.error (.invalidMessage "abstain justifications should come with abstain value"))
        else
          match just0 with
          | .firstRoundZero =>
            match just1 with
            | .firstRoundOne cFinal =>
              match cFinal.action with
              | .final digest sig =>
                if verify_sig sig (c_ready_bytes_to_sign cFinal.proposer digest) then
                  some (.ok ())
                else
                  some (.error (.invalidMessage "invalid signature for the VCBC proposal"))
              | _ =>
                some (.error (.invalidMessage "invalid action. expected c_final"))
            | _ =>
              some (.error (.invalidMessage "invalid justification for value 1 in round 1"))
          | _ =>
            some (.error (.invalidMessage "invalid justification for value 0 in round 1"))
    else
      some (.error (.invalidMessage "invalid signature share"))
  | .decision action =>
    if verify_sig action.sig (main_vote_bytes_to_sign action.round action.value) then
      some (.ok ())
    else
      some (.error (.invalidMessage "invalid signature"))

/-- `Abba::add_message(sender, msg)` (lines 321-354): admit the message into
its round bucket.  `Ok true` means "new, process it", `Ok false` a duplicate
no-op; a different action from the same sender in the same round is a
detected equivocation.  `none` models the underflow panic of the bucket
index `round - 1` (reached only for `round = 0`). -/
def add_message (s : Abba) (sender : NodeId) (msg : Message) :
    Option (Except Error Bool × Abba) :=
  match msg.action with
  | .preVote action =>
    let grown := grow_buckets s.round_pre_votes action.round
    match usizeSub action.round 1 with
    | none => none
    | some idx =>
      match grown.get? idx with
      | none => none
      | some bucket =>
        let s1 := { s with round_pre_votes := grown }
        match bucket_get bucket sender with
        | some exist =>
          if exist ≠ action then
            some (.error (.invalidMessage "double pre-vote detected"), s1)
          else
            some (.ok false, s1)
        | none =>
          some (.ok true,
            { s1 with round_pre_votes := grown.set idx (bucket ++ [(sender, action)]) })
  | .mainVote action =>
    let grown := grow_buckets s.round_main_votes action.round
    match usizeSub action.round 1 with
    | none => none
    | some idx =>
      match grown.get? idx with
      | none => none
      | some bucket =>
        let s1 := { s with round_main_votes := grown }
        match bucket_get bucket sender with
        | some exist =>
          if exist ≠ action then
            some (.error (.invalidMessage "double main-vote detected"), s1)
          else
            some (.ok false, s1)
        | none =>
          some (.ok true,
            { s1 with round_main_votes := grown.set idx (bucket ++ [(sender, action)]) })
  | .decision _ => some (.ok true, s)

/-- `Abba::receive_message(sender, msg)` (lines 88-315), with the
self-delivery of `Abba::broadcast` inlined as a recursive call on the fuel.
Fuel exhaustion returns a `Generic` error; the source's cascade depth is at
most three, so the chosen fuel of `receive_message` never runs out. -/
def receive_message_fuel : Nat → Abba → NodeId → Message →
    Option (Except Error Unit × Abba)
  | 0, s, _, _ => some (.error (.generic "recursion fuel exhausted"), s)
  | Nat.succ fuel, s, sender, msg =>
    match check_message s sender msg with
    | none => none
    | some (.error e) => some (.error e, s)
    | some (.ok _) =>
      match add_message s sender msg with
      | none => none
      | some (.error e, s1) => some (.error e, s1)
      | some (.ok false, s1) => some (.ok (), s1)
      | some (.ok true, s1) =>
        match msg.action with
        | .decision aggMainVote =>
          match s1.decided_value with
          | some existingDecision =>
            if existingDecision ≠ aggMainVote then
              some (.error (.generic "Received conflicting decision"), s1)
            else
              some (.ok (), s1)
          | none =>
            -- `decided_value = Some(...)`, then re-broadcast the msg in case
            -- we were the only one who received it
            match receive_message_fuel fuel
                ({ s1 with decided_value := some aggMainVote }) s1.i msg with
            | none => none
            | some (.error e, s3) => some (.error e, s3)
            | some (.ok _, s3) => some (.ok (), s3)
        | .mainVote action =>
          if action.round + 1 ≠ s1.r then
            some (.ok (), s1)
          else if 1 < s1.r then
            -- select properly justified main-votes from round r − 1
            match get_main_votes_by_round s1 (s1.r - 1) with
            | none => none
            | some none => some (.ok (), s1)  -- no main-votes for this round
            | some (some main_votes) =>
              -- `zero_votes`, `one_votes`, `abstain_votes` are the filters below
              if (main_votes.filter (fun p => p.2.value == MainVoteValue.zero)).length
                  = threshold s1 then
                match combine_signatures s1.pub_key_set
                    ((main_votes.filter (fun p => p.2.value == MainVoteValue.zero)).map
                      (fun p => (p.1, p.2.sig_share))) with
                | .error e => some (.error e, s1)
                | .ok sig =>
                  match receive_message_fuel fuel
                      ({ s1 with
                          decided_value := some (DecisionAction.mk action.round action.value sig) })
                      s1.i
                      (Message.mk (.decision (DecisionAction.mk action.round action.value sig))) with
                  | none => none
                  | some (.error e, s3) => some (.error e, s3)
                  | some (.ok _, s3) => some (.ok (), s3)
              else if (main_votes.filter (fun p => p.2.value == MainVoteValue.one)).length
                  = threshold s1 then
                match combine_signatures s1.pub_key_set
                    ((main_votes.filter (fun p => p.2.value == MainVoteValue.one)).map
                      (fun p => (p.1, p.2.sig_share))) with
                | .error e => some (.error e, s1)
                | .ok sig =>
                  match receive_message_fuel fuel
                      ({ s1 with
                          decided_value := some (DecisionAction.mk action.round action.value sig) })
                      s1.i
                      (Message.mk (.decision (DecisionAction.mk action.round action.value sig))) with
                  | none => none
                  | some (.error e, s3) => some (.error e, s3)
                  | some (.ok _, s3) => some (.ok (), s3)
              else if main_votes.length = threshold s1 then
                match
                  (match main_votes.find? (fun p => p.2.value == MainVoteValue.zero) with
                   | some zeroVote =>
                     -- if there is a main-vote for 0, hard pre-vote for 0
                     match zeroVote.2.justification with
                     | .noAbstain sig =>
                       Except.ok (Value.zero, PreVoteJustification.hard sig)
                     | _ =>
                       Except.error (Error.generic "protocol violated, invalid main-vote justification")
                   | none =>
                     match main_votes.find?
                         (fun (p : NodeId × MainVoteAction) => p.2.value == MainVoteValue.one) with
                     | some oneVote =>
                       -- if there is a main-vote for 1, hard pre-vote for 1
                       match oneVote.2.justification with
                       | .noAbstain sig =>
                         Except.ok (Value.one, PreVoteJustification.hard sig)
                       | _ =>
                         Except.error (Error.generic "protocol violated, invalid main-vote justification")
                     | none =>
                       -- if all main-votes are abstain, soft pre-vote for 1
                       if (main_votes.filter
                            (fun (p : NodeId × MainVoteAction) => p.2.value == MainVoteValue.abstain)).length
                           = threshold s1 then
                         match combine_signatures s1.pub_key_set
                             ((main_votes.filter
                                (fun (p : NodeId × MainVoteAction) => p.2.value == MainVoteValue.abstain)).map
                               (fun (p : NodeId × MainVoteAction) => (p.1, p.2.sig_share))) with
                         | .error e => Except.error e
                         | .ok sig => Except.ok (Value.one, PreVoteJustification.soft sig)
                       else
                         Except.error (Error.generic "protocol violated, no pre-vote majority"))
                with
                | .error e => some (.error e, s1)
                | .ok (value, justification) =>
                  -- sign and broadcast the round-r pre-vote
                  match receive_message_fuel fuel s1 s1.i
                      (Message.mk (.preVote
                        (PreVoteAction.mk s1.r value justification
                          (SignatureShare.mk s1.i (pre_vote_bytes_to_sign s1.r value))))) with
                  | none => none
                  | some (.error e, s3) => some (.error e, s3)
                  | some (.ok _, s3) => some (.ok (), s3)
              else
                some (.ok (), s1)
          else
            some (.ok (), s1)
        | .preVote action =>
          if action.round ≠ s1.r then
            some (.ok (), s1)
          else
            match get_pre_votes_by_round s1 s1.r with
            | none => none
            | some none => some (.ok (), s1)  -- no pre-votes for this round
            | some (some pre_votes) =>
              if pre_votes.length = threshold s1 then
                match
                  (if (pre_votes.filter (fun p => p.2.value == Value.zero)).length
                      = threshold s1 then
                     -- n − t pre-votes for 0: combine shares, main-vote Value(Zero)
                     match combine_signatures s1.pub_key_set
                         ((pre_votes.filter (fun p => p.2.value == Value.zero)).map
                           (fun p => (p.1, p.2.sig_share))) with
                     | .error e => Except.error e
                     | .ok sig =>
                       Except.ok (MainVoteValue.zero, MainVoteJustification.noAbstain sig)
                   else if (pre_votes.filter (fun p => p.2.value == Value.one)).length
                      = threshold s1 then
                     -- n − t pre-votes for 1: combine shares, main-vote Value(One)
                     match combine_signatures s1.pub_key_set
                         ((pre_votes.filter (fun p => p.2.value == Value.one)).map
                           (fun p => (p.1, p.2.sig_share))) with
                     | .error e => Except.error e
                     | .ok sig =>
                       Except.ok (MainVoteValue.one, MainVoteJustification.noAbstain sig)
                   else
                     -- conflicting pre-votes: main-vote abstain with both justifications
                     match pre_votes.find? (fun p => p.2.value == Value.zero),
                           pre_votes.find? (fun p => p.2.value == Value.one) with
                     | some zeroVote, some oneVote =>
                       Except.ok (MainVoteValue.abstain,
                         MainVoteJustification.abstain zeroVote.2.justification
                           oneVote.2.justification)
                     | _, _ =>
                       Except.error (Error.generic "protocol violated, no pre-vote majority"))
                with
                | .error e => some (.error e, s1)
                | .ok (value, just) =>
                  -- sign and broadcast the round-r main-vote, then `self.r += 1`
                  match receive_message_fuel fuel s1 s1.i
                      (Message.mk (.mainVote
                        (MainVoteAction.mk s1.r value just
                          (SignatureShare.mk s1.i (main_vote_bytes_to_sign s1.r value))))) with
                  | none => none
                  | some (.error e, s3) => some (.error e, s3)
                  | some (.ok _, s3) => some (.ok (), { s3 with r := s3.r + 1 })
              else
                some (.ok (), s1)

/-- `Abba::receive_message` with enough fuel for every broadcast cascade of
the source (their depth is at most three). -/
def receive_message (s : Abba) (sender : NodeId) (msg : Message) :
    Option (Except Error Unit × Abba) :=
  receive_message_fuel 8 s sender msg

/-- `Abba::pre_vote(value, justification)` (lines 70-85): sign and broadcast
the own round-`r` pre-vote. -/
def pre_vote (s : Abba) (value : Value) (justification : PreVoteJustification) :
    Option (Except Error Unit × Abba) :=
  match receive_message_fuel 8 s s.i
      (Message.mk (.preVote
        (PreVoteAction.mk s.r value justification
          (SignatureShare.mk s.i (pre_vote_bytes_to_sign s.r value))))) with
  | none => none
  | some (.error e, s') => some (.error e, s')
  | some (.ok _, s') => some (.ok (), s')

/-- `Abba::pre_vote_zero()`. -/
def pre_vote_zero (s : Abba) : Option (Except Error Unit × Abba) :=
  pre_vote s .zero .firstRoundZero

/-- `Abba::pre_vote_one(c_final)`. -/
def pre_vote_one (s : Abba) (cFinal : VcbcMessage) : Option (Except Error Unit × Abba) :=
  pre_vote s .one (.firstRoundOne cFinal)

/-- `Abba::is_decided()`. -/
def is_decided (s : Abba) : Bool :=
  s.decided_value.isSome

/-! ### Basic invariant machinery -/

/-- The pre-vote stored for `n` in the bucket of index `ridx` (round
`ridx + 1`). -/
def pre_vote_entry (s : Abba) (ridx : Nat) (n : NodeId) : Option PreVoteAction :=
  (s.round_pre_votes.get? ridx).bind (fun b => bucket_get b n)

/-- The main-vote stored for `n` in the bucket of index `ridx` (round
`ridx + 1`). -/
def main_vote_entry (s : Abba) (ridx : Nat) (n : NodeId) : Option MainVoteAction :=
  (s.round_main_votes.get? ridx).bind (fun b => bucket_get b n)

/-- `s'` retains every vote stored in `s` — the accumulators only grow and
never replace an entry — and the round counter does not decrease. -/
def entries_mono (s s' : Abba) : Prop :=
  (∀ ridx n a, pre_vote_entry s ridx n = some a → pre_vote_entry s' ridx n = some a) ∧
  (∀ ridx n a, main_vote_entry s ridx n = some a → main_vote_entry s' ridx n = some a) ∧
  s.r ≤ s'.r

theorem entries_mono_refl (s : Abba) : entries_mono s s :=
  ⟨fun _ _ _ h => h, fun _ _ _ h => h, Nat.le_refl _⟩

theorem entries_mono_trans {s1 s2 s3 : Abba}
    (h1 : entries_mono s1 s2) (h2 : entries_mono s2 s3) : entries_mono s1 s3 :=
  ⟨fun ridx n a h => h2.1 ridx n a (h1.1 ridx n a h),
   fun ridx n a h => h2.2.1 ridx n a (h1.2.1 ridx n a h),
   Nat.le_trans h1.2.2 h2.2.2⟩

theorem entries_mono_of_buckets_eq {s s' : Abba}
    (h1 : s.round_pre_votes = s'.round_pre_votes)
    (h2 : s.round_main_votes = s'.round_main_votes)
    (h3 : s.r ≤ s'.r) : entries_mono s s' := by
  refine ⟨?_, ?_, h3⟩ <;> intro ridx n a h
  · unfold pre_vote_entry at h ⊢
    rw [← h1]
    exact h
  · unfold main_vote_entry at h ⊢
    rw [← h2]
    exact h

theorem get?_grow_buckets {β : Type} {l : List (List β)} {ridx : Nat} {b : List β}
    (h : l.get? ridx = some b) (round : Nat) : (grow_buckets l round).get? ridx = some b := by
  have hl : ridx < l.length := by
    rcases List.get?_eq_some.mp h with ⟨hlt, _⟩
    exact hlt
  unfold grow_buckets
  rw [List.get?_append hl]
  exact h

theorem bucket_get_append_left {α : Type} {b : List (NodeId × α)} {n : NodeId} {x : α}
    (h : bucket_get b n = some x) (tail : List (NodeId × α)) :
    bucket_get (b ++ tail) n = some x := by
  unfold bucket_get at h ⊢
  rcases Option.map_eq_some'.mp h with ⟨p, hp, hx⟩
  rw [List.find?_append, hp]
  simp [hx]

/-- `add_message` never removes or replaces a stored vote. -/
theorem add_message_mono {s : Abba} {sender : NodeId} {msg : Message}
    {x : Except Error Bool} {s1 : Abba}
    (h : add_message s sender msg = some (x, s1)) : entries_mono s s1 := by
  rcases msg with ⟨act⟩
  cases act with
  | preVote action =>
    unfold add_message at h
    dsimp only at h
    split at h
    · exact absurd h (by simp)
    · rename_i idx hsub
      split at h
      · exact absurd h (by simp)
      · rename_i bucket hbk
        split at h
        · -- an action from this sender is already stored: the buckets only grow
          have hs1 : s1 = { s with round_pre_votes := grow_buckets s.round_pre_votes action.round } := by
            split at h <;> · cases h; rfl
          subst hs1
          refine ⟨fun ridx n a ha => ?_, fun ridx n a ha => ha, Nat.le_refl _⟩
          unfold pre_vote_entry at ha ⊢
          rcases Option.bind_eq_some.mp ha with ⟨b0, hb0, hget⟩
          simp only
          rw [get?_grow_buckets hb0]
          exact hget
        · -- fresh insertion at the end of the round bucket
          rename_i hex
          cases h
          refine ⟨fun ridx n a ha => ?_, fun ridx n a ha => ha, Nat.le_refl _⟩
          unfold pre_vote_entry at ha ⊢
          rcases Option.bind_eq_some.mp ha with ⟨b0, hb0, hget⟩
          have hb0' : (grow_buckets s.round_pre_votes action.round).get? ridx = some b0 :=
            get?_grow_buckets hb0 action.round
          simp only
          by_cases hri : ridx = idx
          · subst hri
            have hlt : ridx < (grow_buckets s.round_pre_votes action.round).length := by
              rcases List.get?_eq_some.mp hb0' with ⟨hlt, _⟩
              exact hlt
            rw [List.get?_set_eq_of_lt _ hlt]
            have hbb : b0 = bucket := by
              rw [hb0'] at hbk
              exact Option.some.inj hbk
            subst hbb
            simpa using bucket_get_append_left hget [(sender, action)]
          · rw [List.get?_set_ne _ _ (fun hh => hri hh.symm)]
            rw [hb0']
            exact hget
  | mainVote action =>
    unfold add_message at h
    dsimp only at h
    split at h
    · exact absurd h (by simp)
    · rename_i idx hsub
      split at h
      · exact absurd h (by simp)
      · rename_i bucket hbk
        split at h
        · have hs1 : s1 = { s with round_main_votes := grow_buckets s.round_main_votes action.round } := by
            split at h <;> · cases h; rfl
          subst hs1
          refine ⟨fun ridx n a ha => ha, fun ridx n a ha => ?_, Nat.le_refl _⟩
          unfold main_vote_entry at ha ⊢
          rcases Option.bind_eq_some.mp ha with ⟨b0, hb0, hget⟩
          simp only
          rw [get?_grow_buckets hb0]
          exact hget
        · rename_i hex
          cases h
          refine ⟨fun ridx n a ha => ha, fun ridx n a ha => ?_, Nat.le_refl _⟩
          unfold main_vote_entry at ha ⊢
          rcases Option.bind_eq_some.mp ha with ⟨b0, hb0, hget⟩
          have hb0' : (grow_buckets s.round_main_votes action.round).get? ridx = some b0 :=
            get?_grow_buckets hb0 action.round
          simp only
          by_cases hri : ridx = idx
          · subst hri
            have hlt : ridx < (grow_buckets s.round_main_votes action.round).length := by
              rcases List.get?_eq_some.mp hb0' with ⟨hlt, _⟩
              exact hlt
            rw [List.get?_set_eq_of_lt _ hlt]
            have hbb : b0 = bucket := by
              rw [hb0'] at hbk
              exact Option.some.inj hbk
            subst hbb
            simpa using bucket_get_append_left hget [(sender, action)]
          · rw [List.get?_set_ne _ _ (fun hh => hri hh.symm)]
            rw [hb0']
            exact hget
  | decision action =>
    unfold add_message at h
    dsimp only at h
    cases h
    exact entries_mono_refl s

theorem mono_chain_decided {s s1 s' : Abba} (d : Option DecisionAction) (h1 : entries_mono s s1)
    (h4 : entries_mono { s1 with decided_value := d } s') : entries_mono s s' :=
  entries_mono_trans h1
    (entries_mono_trans (entries_mono_of_buckets_eq rfl rfl (Nat.le_refl _)) h4)

theorem mono_chain_r {s s1 s3 : Abba} (h1 : entries_mono s s1)
    (h2 : entries_mono s1 s3) : entries_mono s { s3 with r := s3.r + 1 } :=
  entries_mono_trans h1
    (entries_mono_trans h2 (entries_mono_of_buckets_eq rfl rfl (Nat.le_succ _)))

set_option maxHeartbeats 1000000 in
/-- `receive_message` (at any fuel) never removes or replaces a stored vote:
the accumulators only grow, whatever the message and whatever the outcome. -/
theorem receive_fuel_mono : ∀ (fuel : Nat) {s : Abba} {sender : NodeId} {msg : Message}
    {res : Except Error Unit} {s' : Abba},
    receive_message_fuel fuel s sender msg = some (res, s') → entries_mono s s' := by
  intro fuel
  induction fuel with
  | zero =>
    intro s sender msg res s' h
    rw [receive_message_fuel] at h
    cases h
    exact entries_mono_refl s
  | succ fuel ih =>
    intro s sender msg res s' h
    rw [receive_message_fuel] at h
    repeat' split at h
    all_goals try cases h
    all_goals
      solve_by_elim [entries_mono_refl, entries_mono_trans, add_message_mono, ih,
        mono_chain_decided, mono_chain_r]

/-- After `add_message` admits a pre-vote (fresh or duplicate), the bucket of
its round stores exactly that action for the sender. -/
theorem add_message_pre_vote_entry {s : Abba} {sender : NodeId} {a : PreVoteAction}
    {x : Bool} {s1 : Abba}
    (h : add_message s sender ⟨.preVote a⟩ = some (.ok x, s1)) :
    pre_vote_entry s1 (a.round - 1) sender = some a := by
  unfold add_message at h
  dsimp only at h
  split at h
  · exact absurd h (by simp)
  · rename_i idx hsub
    have hidx : idx = a.round - 1 := by
      unfold usizeSub at hsub
      split at hsub
      · exact (Option.some.inj hsub).symm
      · exact absurd hsub (by simp)
    subst hidx
    split at h
    · exact absurd h (by simp)
    · rename_i bucket hbk
      split at h
      · rename_i exist hex
        split at h
        · exact absurd h (by simp)
        · rename_i hne
          cases h
          simp only [ne_eq, not_not] at hne
          subst hne
          simp only [pre_vote_entry, List.get?_eq_getElem?] at hbk ⊢
          simp [hbk, hex]
      · rename_i hex
        cases h
        have hfind : bucket.find? (fun p => p.1 == sender) = none := by
          simpa [bucket_get] using hex
        have hlt : a.round - 1 < (grow_buckets s.round_pre_votes a.round).length := by
          rcases List.get?_eq_some.mp hbk with ⟨hlt, _⟩
          exact hlt
        simp only [pre_vote_entry, List.get?_eq_getElem?]
        simp [List.getElem?_set_eq_of_lt _ hlt, bucket_get, List.find?_append, hfind, List.find?]

/-- After `add_message` admits a main-vote, the bucket of its round stores
exactly that action for the sender. -/
theorem add_message_main_vote_entry {s : Abba} {sender : NodeId} {a : MainVoteAction}
    {x : Bool} {s1 : Abba}
    (h : add_message s sender ⟨.mainVote a⟩ = some (.ok x, s1)) :
    main_vote_entry s1 (a.round - 1) sender = some a := by
  unfold add_message at h
  dsimp only at h
  split at h
  · exact absurd h (by simp)
  · rename_i idx hsub
    have hidx : idx = a.round - 1 := by
      unfold usizeSub at hsub
      split at hsub
      · exact (Option.some.inj hsub).symm
      · exact absurd hsub (by simp)
    subst hidx
    split at h
    · exact absurd h (by simp)
    · rename_i bucket hbk
      split at h
      · rename_i exist hex
        split at h
        · exact absurd h (by simp)
        · rename_i hne
          cases h
          simp only [ne_eq, not_not] at hne
          subst hne
          simp only [main_vote_entry, List.get?_eq_getElem?] at hbk ⊢
          simp [hbk, hex]
      · rename_i hex
        cases h
        have hfind : bucket.find? (fun p => p.1 == sender) = none := by
          simpa [bucket_get] using hex
        have hlt : a.round - 1 < (grow_buckets s.round_main_votes a.round).length := by
          rcases List.get?_eq_some.mp hbk with ⟨hlt, _⟩
          exact hlt
        simp only [main_vote_entry, List.get?_eq_getElem?]
        simp [List.getElem?_set_eq_of_lt _ hlt, bucket_get, List.find?_append, hfind, List.find?]

/-- Setting `decided_value` does not touch the vote accumulators. -/
theorem main_vote_entry_decided {s : Abba} {d : Option DecisionAction} {ridx : Nat} {n : NodeId} :
    main_vote_entry { s with decided_value := d } ridx n = main_vote_entry s ridx n := rfl

/-- A successful `receive_message` of a pre-vote leaves that pre-vote stored
for its sender in the bucket of its round. -/
theorem receive_ok_pre_vote_entry {fuel : Nat} {s : Abba} {sender : NodeId}
    {a : PreVoteAction} {s' : Abba}
    (h : receive_message_fuel (fuel + 1) s sender ⟨.preVote a⟩ = some (.ok (), s')) :
    pre_vote_entry s' (a.round - 1) sender = some a := by
  rw [receive_message_fuel] at h
  dsimp only at h
  split at h
  · exact absurd h (by simp)
  · exact absurd h (by simp)
  · split at h
    · exact absurd h (by simp)
    · exact absurd h (by simp)
    · rename_i s1 hadd
      cases h
      exact add_message_pre_vote_entry hadd
    · rename_i s1 hadd
      split at h
      · cases h
        exact add_message_pre_vote_entry hadd
      · split at h
        · exact absurd h (by simp)
        · cases h
          exact add_message_pre_vote_entry hadd
        · split at h
          · split at h
            · exact absurd h (by simp)
            · split at h
              · exact absurd h (by simp)
              · exact absurd h (by simp)
              · rename_i s3 hrec
                cases h
                exact (receive_fuel_mono fuel hrec).1 _ _ _ (add_message_pre_vote_entry hadd)
          · cases h
            exact add_message_pre_vote_entry hadd

/-- A successful `receive_message` of a main-vote leaves that main-vote stored
for its sender in the bucket of its round. -/
theorem receive_ok_main_vote_entry {fuel : Nat} {s : Abba} {sender : NodeId}
    {a : MainVoteAction} {s' : Abba}
    (h : receive_message_fuel (fuel + 1) s sender ⟨.mainVote a⟩ = some (.ok (), s')) :
    main_vote_entry s' (a.round - 1) sender = some a := by
  rw [receive_message_fuel] at h
  dsimp only at h
  split at h
  · exact absurd h (by simp)
  · exact absurd h (by simp)
  · split at h
    · exact absurd h (by simp)
    · exact absurd h (by simp)
    · rename_i s1 hadd
      cases h
      exact add_message_main_vote_entry hadd
    · rename_i s1 hadd
      split at h
      · cases h
        exact add_message_main_vote_entry hadd
      · split at h
        · split at h
          · exact absurd h (by simp)
          · cases h
            exact add_message_main_vote_entry hadd
          · split at h
            · split at h
              · exact absurd h (by simp)
              · rename_i sig hcomb
                split at h
                · exact absurd h (by simp)
                · exact absurd h (by simp)
                · rename_i s3 hrec
                  cases h
                  have hentry : main_vote_entry
                      ({ s1 with decided_value := some (DecisionAction.mk a.round a.value sig) })
                      (a.round - 1) sender = some a := by
                    rw [main_vote_entry_decided]
                    exact add_message_main_vote_entry hadd
                  exact (receive_fuel_mono fuel hrec).2.1 _ _ _ hentry
            · split at h
              · split at h
                · exact absurd h (by simp)
                · rename_i sig hcomb
                  split at h
                  · exact absurd h (by simp)
                  · exact absurd h (by simp)
                  · rename_i s3 hrec
                    cases h
                    have hentry : main_vote_entry
                        ({ s1 with decided_value := some (DecisionAction.mk a.round a.value sig) })
                        (a.round - 1) sender = some a := by
                      rw [main_vote_entry_decided]
                      exact add_message_main_vote_entry hadd
                    exact (receive_fuel_mono fuel hrec).2.1 _ _ _ hentry
              · split at h
                · split at h
                  · exact absurd h (by simp)
                  · split at h
                    · exact absurd h (by simp)
                    · exact absurd h (by simp)
                    · rename_i s3 hrec
                      cases h
                      exact (receive_fuel_mono fuel hrec).2.1 _ _ _ (add_message_main_vote_entry hadd)
                · cases h
                  exact add_message_main_vote_entry hadd
        · cases h
          exact add_message_main_vote_entry hadd

/-- A successful `receive_message` of a decision message leaves exactly that
decision latched in `decided_value`. -/
theorem receive_ok_decision_latch : ∀ {fuel : Nat} {s : Abba} {sender : NodeId}
    {d : DecisionAction} {s' : Abba},
    receive_message_fuel fuel s sender ⟨.decision d⟩ = some (.ok (), s') →
    s'.decided_value = some d := by
  intro fuel
  induction fuel with
  | zero =>
    intro s sender d s' h
    rw [receive_message_fuel] at h
    exact absurd h (by simp)
  | succ fuel ih =>
    intro s sender d s' h
    rw [receive_message_fuel] at h
    dsimp only at h
    split at h
    · exact absurd h (by simp)
    · exact absurd h (by simp)
    · split at h
      · exact absurd h (by simp)
      · exact absurd h (by simp)
      · rename_i s1 hadd
        exact absurd hadd (by simp [add_message])
      · rename_i s1 hadd
        split at h
        · rename_i existing hdec
          split at h
          · exact absurd h (by simp)
          · rename_i hne
            cases h
            simp only [ne_eq, not_not] at hne
            rw [hdec, hne]
        · rename_i hdec
          split at h
          · exact absurd h (by simp)
          · exact absurd h (by simp)
          · rename_i s3 hrec
            cases h
            exact ih hrec

/-- `usizeSub` succeeds without underflow. -/
theorem usizeSub_some {a b : Nat} (h : b ≤ a) : usizeSub a b = some (a - b) := by
  simp [usizeSub, h]

/-- Growing to an already covered round is a no-op. -/
theorem grow_buckets_eq_self {β : Type} {l : List (List β)} {round : Nat}
    (h : round ≤ l.length) : grow_buckets l round = l := by
  unfold grow_buckets
  rw [Nat.sub_eq_zero_of_le h]
  simp

/-- An admitted pre-vote has a positive round (round 0 would have panicked on
the bucket index `round - 1`). -/
theorem add_message_pre_round_pos {s : Abba} {sender : NodeId} {a : PreVoteAction}
    {x : Bool} {s1 : Abba}
    (h : add_message s sender ⟨.preVote a⟩ = some (.ok x, s1)) : 1 ≤ a.round := by
  unfold add_message at h
  dsimp only at h
  split at h
  · exact absurd h (by simp)
  · rename_i idx hsub
    unfold usizeSub at hsub
    split at hsub
    · assumption
    · exact absurd hsub (by simp)

/-- An admitted main-vote has a positive round. -/
theorem add_message_main_round_pos {s : Abba} {sender : NodeId} {a : MainVoteAction}
    {x : Bool} {s1 : Abba}
    (h : add_message s sender ⟨.mainVote a⟩ = some (.ok x, s1)) : 1 ≤ a.round := by
  unfold add_message at h
  dsimp only at h
  split at h
  · exact absurd h (by simp)
  · rename_i idx hsub
    unfold usizeSub at hsub
    split at hsub
    · assumption
    · exact absurd hsub (by simp)

/-- A successfully received pre-vote has a positive round. -/
theorem receive_ok_pre_round_pos {fuel : Nat} {s : Abba} {sender : NodeId}
    {a : PreVoteAction} {s' : Abba}
    (h : receive_message_fuel (fuel + 1) s sender ⟨.preVote a⟩ = some (.ok (), s')) :
    1 ≤ a.round := by
  rw [receive_message_fuel] at h
  dsimp only at h
  split at h
  · exact absurd h (by simp)
  · exact absurd h (by simp)
  · split at h
    · exact absurd h (by simp)
    · exact absurd h (by simp)
    · rename_i s1 hadd
      exact add_message_pre_round_pos hadd
    · rename_i s1 hadd
      exact add_message_pre_round_pos hadd

/-- A successfully received main-vote has a positive round. -/
theorem receive_ok_main_round_pos {fuel : Nat} {s : Abba} {sender : NodeId}
    {a : MainVoteAction} {s' : Abba}
    (h : receive_message_fuel (fuel + 1) s sender ⟨.mainVote a⟩ = some (.ok (), s')) :
    1 ≤ a.round := by
  rw [receive_message_fuel] at h
  dsimp only at h
  split at h
  · exact absurd h (by simp)
  · exact absurd h (by simp)
  · split at h
    · exact absurd h (by simp)
    · exact absurd h (by simp)
    · rename_i s1 hadd
      exact add_message_main_round_pos hadd
    · rename_i s1 hadd
      exact add_message_main_round_pos hadd

/-- Re-admitting a stored pre-vote is the duplicate no-op `Ok(false)` and
leaves the state untouched. -/
theorem add_message_duplicate_pre {s1 : Abba} {sender : NodeId} {a : PreVoteAction}
    (hent : pre_vote_entry s1 (a.round - 1) sender = some a) (hpos : 1 ≤ a.round) :
    add_message s1 sender ⟨.preVote a⟩ = some (.ok false, s1) := by
  unfold pre_vote_entry at hent
  rcases Option.bind_eq_some.mp hent with ⟨bucket, hbk, hget⟩
  have hlen : a.round ≤ s1.round_pre_votes.length := by
    rcases List.get?_eq_some.mp hbk with ⟨hlt, _⟩
    omega
  unfold add_message
  dsimp only
  rw [grow_buckets_eq_self hlen, usizeSub_some hpos]
  simp only
  rw [hbk]
  simp only
  rw [hget]
  simp

/-- Re-admitting a stored main-vote is the duplicate no-op `Ok(false)`. -/
theorem add_message_duplicate_main {s1 : Abba} {sender : NodeId} {a : MainVoteAction}
    (hent : main_vote_entry s1 (a.round - 1) sender = some a) (hpos : 1 ≤ a.round) :
    add_message s1 sender ⟨.mainVote a⟩ = some (.ok false, s1) := by
  unfold main_vote_entry at hent
  rcases Option.bind_eq_some.mp hent with ⟨bucket, hbk, hget⟩
  have hlen : a.round ≤ s1.round_main_votes.length := by
    rcases List.get?_eq_some.mp hbk with ⟨hlt, _⟩
    omega
  unfold add_message
  dsimp only
  rw [grow_buckets_eq_self hlen, usizeSub_some hpos]
  simp only
  rw [hbk]
  simp only
  rw [hget]
  simp

/-- When `add_message` reports a duplicate, `receive_message` returns exactly
what `check_message` returned and does not touch the state. -/
theorem receive_of_check_of_dup {fuel : Nat} {s1 : Abba} {sender : NodeId} {msg : Message}
    {c : Except Error Unit}
    (h2 : check_message s1 sender msg = some c)
    (hadd : add_message s1 sender msg = some (.ok false, s1)) :
    receive_message_fuel (fuel + 1) s1 sender msg = some (c, s1) := by
  rw [receive_message_fuel]
  rw [h2]
  cases c with
  | error e => rfl
  | ok u =>
    rw [hadd]

/-- Re-delivering the decision already latched returns what `check_message`
returned and does not touch the state. -/
theorem receive_decision_already {fuel : Nat} {s1 : Abba} {sender : NodeId}
    {d : DecisionAction} {c : Except Error Unit}
    (h2 : check_message s1 sender ⟨.decision d⟩ = some c)
    (hdec : s1.decided_value = some d) :
    receive_message_fuel (fuel + 1) s1 sender ⟨.decision d⟩ = some (c, s1) := by
  rw [receive_message_fuel]
  rw [h2]
  cases c with
  | error e => rfl
  | ok u =>
    rw [show add_message s1 sender ⟨.decision d⟩ = some (.ok true, s1) from rfl]
    simp [hdec]

/-- C9 (amended): re-delivery of an identical message never changes the engine
state; it returns whatever `check_message` returns on the post-state — `Ok` for
stored pre-vote and main-vote duplicates whose justification still verifies and for a
re-delivered matching decision, and an `InvalidMessage` error when the re-run
check fails (which the counterexample shows can happen for a `Soft`-justified
pre-vote once the first delivery advanced the round). -/
theorem receive_message_duplicate {s s1 : Abba} {sender : NodeId} {msg : Message}
    {c : Except Error Unit}
    (h1 : receive_message s sender msg = some (.ok (), s1))
    (h2 : check_message s1 sender msg = some c) :
    receive_message s1 sender msg = some (c, s1) := by
  unfold receive_message at h1 ⊢
  rcases msg with ⟨act⟩
  cases act with
  | preVote a =>
    exact receive_of_check_of_dup h2
      (add_message_duplicate_pre (receive_ok_pre_vote_entry h1) (receive_ok_pre_round_pos h1))
  | mainVote a =>
    exact receive_of_check_of_dup h2
      (add_message_duplicate_main (receive_ok_main_vote_entry h1) (receive_ok_main_round_pos h1))
  | decision d =>
    exact receive_decision_already h2 (receive_ok_decision_latch h1)

/-- The round a message claims: the `round` field of a pre-vote or main-vote;
decisions have no bucket, so they count as round 1. -/
def min_round (msg : Message) : Nat :=
  match msg.action with
  | .preVote a => a.round
  | .mainVote a => a.round
  | .decision _ => 1

/-- `check_message` never panics when the engine round and the message round
are positive. -/
theorem check_message_isSome {s : Abba} {sender : NodeId} {msg : Message}
    (hr : 1 ≤ s.r) (hm : 1 ≤ min_round msg) :
    ∃ c, check_message s sender msg = some c := by
  rcases msg with ⟨act⟩
  cases act with
  | preVote a =>
    simp only [min_round] at hm
    unfold check_message
    dsimp only
    rw [usizeSub_some hm, usizeSub_some hr]
    repeat' split
    all_goals try exact ⟨_, rfl⟩
    all_goals simp_all
  | mainVote a =>
    unfold check_message
    dsimp only
    repeat' split
    all_goals exact ⟨_, rfl⟩
  | decision a =>
    unfold check_message
    dsimp only
    repeat' split
    all_goals exact ⟨_, rfl⟩

/-- After growing, the bucket vector covers the round. -/
theorem grow_buckets_length_ge {β : Type} (l : List (List β)) (round : Nat) :
    round ≤ (grow_buckets l round).length := by
  unfold grow_buckets
  simp
  omega

/-- `add_message` never panics for messages of round at least 1: after the
grow loop the index `round - 1` is in bounds. -/
theorem add_message_isSome (s : Abba) (sender : NodeId) {msg : Message}
    (hm : 1 ≤ min_round msg) :
    ∃ x, add_message s sender msg = some x := by
  rcases msg with ⟨act⟩
  cases act with
  | preVote a =>
    simp only [min_round] at hm
    unfold add_message
    dsimp only
    rw [usizeSub_some hm]
    have hlt : a.round - 1 < (grow_buckets s.round_pre_votes a.round).length := by
      have := grow_buckets_length_ge s.round_pre_votes a.round
      omega
    split
    · rename_i heq
      exact absurd heq (by simp)
    · rename_i idx heq
      have hidx : a.round - 1 = idx := Option.some.inj heq
      subst hidx
      split
      · rename_i heq2
        rw [List.get?_eq_getElem?, List.getElem?_eq_none_iff] at heq2
        omega
      · repeat' split
        all_goals exact ⟨_, rfl⟩
  | mainVote a =>
    simp only [min_round] at hm
    unfold add_message
    dsimp only
    rw [usizeSub_some hm]
    have hlt : a.round - 1 < (grow_buckets s.round_main_votes a.round).length := by
      have := grow_buckets_length_ge s.round_main_votes a.round
      omega
    split
    · rename_i heq
      exact absurd heq (by simp)
    · rename_i idx heq
      have hidx : a.round - 1 = idx := Option.some.inj heq
      subst hidx
      split
      · rename_i heq2
        rw [List.get?_eq_getElem?, List.getElem?_eq_none_iff] at heq2
        omega
      · repeat' split
        all_goals exact ⟨_, rfl⟩
  | decision a =>
    exact ⟨_, rfl⟩

/-- `add_message` does not change the round counter. -/
theorem add_message_r_eq {s : Abba} {sender : NodeId} {msg : Message}
    {x : Except Error Bool} {s1 : Abba}
    (h : add_message s sender msg = some (x, s1)) : s1.r = s.r := by
  rcases msg with ⟨act⟩
  cases act with
  | preVote a =>
    unfold add_message at h
    dsimp only at h
    repeat' split at h
    all_goals try cases h
    all_goals rfl
  | mainVote a =>
    unfold add_message at h
    dsimp only at h
    repeat' split at h
    all_goals try cases h
    all_goals rfl
  | decision a =>
    unfold add_message at h
    dsimp only at h
    cases h
    rfl

/-- Totality of `receive_message` at every fuel: with a positive engine round
and a positive message round nothing panics. -/
theorem receive_fuel_isSome : ∀ (fuel : Nat) (s : Abba) (sender : NodeId) (msg : Message),
    1 ≤ s.r → 1 ≤ min_round msg →
    ∃ out, receive_message_fuel fuel s sender msg = some out := by
  intro fuel
  induction fuel with
  | zero =>
    intro s sender msg hr hm
    exact ⟨_, rfl⟩
  | succ fuel ih =>
    intro s sender msg hr hm
    obtain ⟨c, hc⟩ := check_message_isSome hr hm
    rw [receive_message_fuel]
    split
    · rename_i heq
      rw [hc] at heq
      exact Option.noConfusion heq
    · exact ⟨_, rfl⟩
    · split
      · rename_i heq
        obtain ⟨x, hx⟩ := add_message_isSome s sender hm
        rw [hx] at heq
        exact Option.noConfusion heq
      · exact ⟨_, rfl⟩
      · exact ⟨_, rfl⟩
      · rename_i s1 hadd
        have hs1r : s1.r = s.r := add_message_r_eq hadd
        have Hne : ∀ (s2 : Abba) (sender2 : NodeId) (msg2 : Message),
            s2.r = s1.r → 1 ≤ min_round msg2 →
            receive_message_fuel fuel s2 sender2 msg2 ≠ none := by
          intro s2 sender2 msg2 he hm2 hnone
          obtain ⟨out, ho⟩ := ih s2 sender2 msg2 (by omega) hm2
          rw [ho] at hnone
          exact Option.noConfusion hnone
        repeat' split
        all_goals try exact ⟨_, rfl⟩
        all_goals rename_i heq
        all_goals
          first
            | (unfold get_main_votes_by_round at heq
               rw [usizeSub_some (by omega)] at heq
               exact Option.noConfusion heq)
            | (unfold get_pre_votes_by_round at heq
               rw [usizeSub_some (by omega)] at heq
               exact Option.noConfusion heq)
            | exact absurd heq (Hne _ _ _ rfl hm)
            | exact absurd heq (Hne _ _ _ rfl (Nat.le_refl 1))
            | exact absurd heq (Hne _ _ _ rfl (by show (1:Nat) ≤ s1.r; omega))

/-- The reachable engine states: a freshly constructed engine, and anything
an input operation (an inbound message or an own initial pre-vote) produces
from a reachable state. -/
inductive Reachable : Abba → Prop
  | start (self_id proposer : NodeId) (pks : PublicKeySet) :
      Reachable (Abba.new self_id proposer pks)
  | recv {s next : Abba} {res : Except Error Unit} (sender : NodeId) (msg : Message) :
      Reachable s → receive_message s sender msg = some (res, next) → Reachable next
  | voteZero {s next : Abba} {res : Except Error Unit} :
      Reachable s → pre_vote_zero s = some (res, next) → Reachable next
  | voteOne {s next : Abba} {res : Except Error Unit} (cFinal : VcbcMessage) :
      Reachable s → pre_vote_one s cFinal = some (res, next) → Reachable next

/-- The round counter never decreases across `receive_message`. -/
theorem receive_fuel_r_mono (fuel : Nat) {s : Abba} {sender : NodeId} {msg : Message}
    {res : Except Error Unit} {s' : Abba}
    (h : receive_message_fuel fuel s sender msg = some (res, s')) : s.r ≤ s'.r :=
  (receive_fuel_mono fuel h).2.2

/-- The round counter never decreases across an own `pre_vote`. -/
theorem pre_vote_r_mono {s : Abba} {v : Value} {j : PreVoteJustification}
    {res : Except Error Unit} {s' : Abba}
    (h : pre_vote s v j = some (res, s')) : s.r ≤ s'.r := by
  unfold pre_vote at h
  split at h
  · exact absurd h (by simp)
  · rename_i e s2 heq
    cases h
    exact receive_fuel_r_mono 8 heq
  · rename_i u s2 heq
    cases h
    exact receive_fuel_r_mono 8 heq

/-- Every reachable engine has a positive round counter: `new` starts at
`r = 1` and `r` only grows. -/
theorem reachable_r_pos {s : Abba} (h : Reachable s) : 1 ≤ s.r := by
  induction h with
  | start self_id proposer pks => exact Nat.le_refl 1
  | recv sender msg hs hr ih => exact Nat.le_trans ih (receive_fuel_r_mono 8 hr)
  | voteZero hs hr ih => exact Nat.le_trans ih (pre_vote_r_mono hr)
  | voteOne cFinal hs hr ih => exact Nat.le_trans ih (pre_vote_r_mono hr)

/-- Modelled from the spec: the `Domain` of an instance tag, "(domain_label,
domain_id)" (§3), as the tests build it with `Domain::new("test-domain", 0)`.
The `tag` module itself is not under src/. -/
structure Domain : Type where
  name : String
  idx : Nat
deriving DecidableEq, Repr

/-- Modelled from the spec: the instance `Tag` — "a domain label plus the
NodeId of the proposer this instance concerns" (§2, §3); missing from src/,
whose `abba/mod.rs` predates the Tag. -/
structure Tag : Type where
  domain : Domain
  proposer : NodeId
deriving DecidableEq, Repr

/-- Modelled from the spec: the canonical tagged signing byte strings
`encode(("pre-vote", tag, round, value))` and
`encode(("main-vote", tag, round, value))` of §4.1; the engine version using
them is missing from src/ (the `mod.rs` under src/ omits the tag from its
signing bytes).  The encoding is injective over these tuple shapes (§4.1 (a)),
which the inductive captures. -/
inductive TaggedSignBytes : Type
  | preVote (tag : Tag) (round : Nat) (v : Value)
  | mainVote (tag : Tag) (round : Nat) (v : MainVoteValue)
deriving DecidableEq, Repr

/-- Modelled from the spec: pre-vote signing bytes including the Tag (§4.1). -/
def pre_vote_bytes_tagged (tag : Tag) (round : Nat) (v : Value) : TaggedSignBytes :=
  .preVote tag round v

/-- Modelled from the spec: main-vote signing bytes including the Tag (§4.1). -/
def main_vote_bytes_tagged (tag : Tag) (round : Nat) (v : MainVoteValue) : TaggedSignBytes :=
  .mainVote tag round v

/-- An aggregate signature over tagged bytes, symbolic as before: it records
the byte string it certifies. -/
structure TaggedSignature : Type where
  bytes : TaggedSignBytes
deriving DecidableEq, Repr

/-- Verification of an aggregate over tagged bytes. -/
def verify_sig_tagged (sig : TaggedSignature) (bytes : TaggedSignBytes) : Bool :=
  sig.bytes == bytes

/-- A signature share over tagged bytes, symbolic: the signer together with
the byte string signed. -/
structure TaggedSignatureShare : Type where
  signer : NodeId
  bytes : TaggedSignBytes
deriving DecidableEq, Repr

/-- Verification of a share over tagged bytes under the sender's share
public key. -/
def verify_share_tagged (sender : NodeId) (share : TaggedSignatureShare)
    (bytes : TaggedSignBytes) : Bool :=
  share.signer == sender && share.bytes == bytes

/-- C4: the tagged signing bytes include the engine's Tag, so two engines
whose Tags differ produce different signing bytes for the same
(phase, round, value) tuple, and a signature share or aggregate verifying in
one instance never verifies in the other. -/
theorem tagged_bytes_domain_separation {t1 t2 : Tag} (hne : t1 ≠ t2)
    (round : Nat) (v : Value) (w : MainVoteValue) :
    pre_vote_bytes_tagged t1 round v ≠ pre_vote_bytes_tagged t2 round v ∧
    main_vote_bytes_tagged t1 round w ≠ main_vote_bytes_tagged t2 round w ∧
    (∀ σ : TaggedSignature, verify_sig_tagged σ (pre_vote_bytes_tagged t1 round v) = true →
      verify_sig_tagged σ (pre_vote_bytes_tagged t2 round v) = false) ∧
    (∀ σ : TaggedSignature, verify_sig_tagged σ (main_vote_bytes_tagged t1 round w) = true →
      verify_sig_tagged σ (main_vote_bytes_tagged t2 round w) = false) ∧
    (∀ (n : NodeId) (sh : TaggedSignatureShare),
      verify_share_tagged n sh (pre_vote_bytes_tagged t1 round v) = true →
      verify_share_tagged n sh (pre_vote_bytes_tagged t2 round v) = false) ∧
    (∀ (n : NodeId) (sh : TaggedSignatureShare),
      verify_share_tagged n sh (main_vote_bytes_tagged t1 round w) = true →
      verify_share_tagged n sh (main_vote_bytes_tagged t2 round w) = false) := by
  refine ⟨?_, ?_, ?_, ?_, ?_, ?_⟩
  · intro hcontra
    exact hne (by injection hcontra)
  · intro hcontra
    exact hne (by injection hcontra)
  · intro σ h1
    simp only [verify_sig_tagged, beq_iff_eq] at h1 ⊢
    rw [h1]
    simp only [beq_eq_false_iff_ne, ne_eq]
    intro hcontra
    exact hne (by injection hcontra)
  · intro σ h1
    simp only [verify_sig_tagged, beq_iff_eq] at h1 ⊢
    rw [h1]
    simp only [beq_eq_false_iff_ne, ne_eq]
    intro hcontra
    exact hne (by injection hcontra)
  · intro n sh h1
    simp only [verify_share_tagged, Bool.and_eq_true, beq_iff_eq] at h1
    simp only [verify_share_tagged, Bool.and_eq_false_iff, beq_eq_false_iff_ne, ne_eq]
    right
    rw [h1.2]
    intro hcontra
    exact hne (by injection hcontra)
  · intro n sh h1
    simp only [verify_share_tagged, Bool.and_eq_true, beq_iff_eq] at h1
    simp only [verify_share_tagged, Bool.and_eq_false_iff, beq_eq_false_iff_ne, ne_eq]
    right
    rw [h1.2]
    intro hcontra
    exact hne (by injection hcontra)

/-- Modelled from the spec: ABBA wire messages carry the instance Tag
("Message variants (all carry Tag)", §4.3); the `Message` under src/ predates
this. -/
structure TaggedMessage : Type where
  tag : Tag
  action : MsgAction
deriving DecidableEq, Repr

/-- Modelled from the spec: the tagged ABBA engine — the engine the tests
exercise carries its instance tag (missing from the `Abba` struct under
src/). -/
structure AbbaT : Type where
  tag : Tag
  core : Abba
deriving DecidableEq, Repr

/-- Modelled from the spec: `receive_message` of the tagged engine: "Tag
mismatch (different domain or proposer) on any inbound message →
InvalidMessage(\"invalid tag ...\")" (§8), as the tests
`test_ignore_messages_with_wrong_domain` / `..._wrong_proposer` assert; a
message with the right tag is processed exactly as in `mod.rs`. -/
def receive_message_tagged (s : AbbaT) (sender : NodeId) (msg : TaggedMessage) :
    Option (Except Error Unit × AbbaT) :=
  if msg.tag ≠ s.tag then
    some (.error (.invalidMessage "invalid tag"), s)
  else
    match receive_message s.core sender ⟨msg.action⟩ with
    | none => none
    | some (res, core') => some (res, ⟨s.tag, core'⟩)

/-- C5: an inbound message whose tag differs from the engine's instance tag
component-wise is rejected with `InvalidMessage` and has no effect on the
engine state. -/
theorem tag_mismatch_rejected {s : AbbaT} {sender : NodeId} {msg : TaggedMessage}
    (hne : msg.tag ≠ s.tag) :
    receive_message_tagged s sender msg = some (.error (.invalidMessage "invalid tag"), s) := by
  simp [receive_message_tagged, hne]

/-- Modelled from the spec: the VCBC certificate carried by a
WithValidity/FirstRoundOne justification when its signature verifies against
the c-ready bytes (§4.3); §9 notes the spec "latches it on the first
successful WithValidity verification from any message", so both the pre-vote
justification and the second arm of an Abstain main-vote justification
carry one. -/
def message_validity_cert (msg : Message) : Option (Hash32 × Signature) :=
  match msg.action with
  | .preVote a =>
    match a.justification with
    | .firstRoundOne cFinal =>
      match cFinal.action with
      | .final digest sig =>
        if verify_sig sig (c_ready_bytes_to_sign cFinal.proposer digest) then
          some (digest, sig)
        else
          none
      | _ => none
    | _ => none
  | .mainVote a =>
    match a.justification with
    | .abstain _ just1 =>
      match just1 with
      | .firstRoundOne cFinal =>
        match cFinal.action with
        | .final digest sig =>
          if verify_sig sig (c_ready_bytes_to_sign cFinal.proposer digest) then
            some (digest, sig)
          else
            none
        | _ => none
      | _ => none
    | _ => none
  | .decision _ => none

/-- Modelled from the spec: the engine state with the
`weak_validity: Option<(Hash32, Signature)>` component of §3, missing from
the `Abba` struct under src/ but exercised by the tests
(`t.abba.weak_validity`). -/
structure AbbaW : Type where
  weak_validity : Option (Hash32 × Signature)
  core : Abba
deriving DecidableEq, Repr

/-- Modelled from the spec: `receive_message` of the weak-validity engine —
it latches `weak_validity` with the certificate of the first successfully
verified WithValidity justification it observes and never mutates it
afterwards (§3, P5). -/
def receive_message_weak (s : AbbaW) (sender : NodeId) (msg : Message) :
    Option (Except Error Unit × AbbaW) :=
  match receive_message s.core sender msg with
  | none => none
  | some (res, core') =>
    some (res,
      { weak_validity :=
          match s.weak_validity with
          | some c => some c
          | none => message_validity_cert msg
        core := core' })

/-- C7: `weak_validity` is set to the certificate of the first successfully
verified WithValidity justification the engine observes, and once `Some` it
is never mutated or cleared by any subsequent `receive_message`. -/
theorem weak_validity_latch {s : AbbaW} {sender : NodeId} {msg : Message}
    {res : Except Error Unit} {s' : AbbaW}
    (h : receive_message_weak s sender msg = some (res, s')) :
    (∀ c, s.weak_validity = some c → s'.weak_validity = some c) ∧
    (s.weak_validity = none → s'.weak_validity = message_validity_cert msg) := by
  unfold receive_message_weak at h
  split at h
  · exact absurd h (by simp)
  · cases h
    constructor
    · intro c hc
      simp [hc]
    · intro hc
      simp [hc]

/-- C8 (amended): every error raised by the validation pass `check_message`
is atomic — `receive_message` returns it with the engine state exactly as it
was.  (The counterexample shows that errors raised after admission are not
atomic: the admitted vote, and possibly an overwritten `decided_value`,
persist.) -/
theorem receive_message_check_error_atomic {s : Abba} {sender : NodeId} {msg : Message}
    {e : Error}
    (h : check_message s sender msg = some (.error e)) :
    receive_message s sender msg = some (.error e, s) := by
  unfold receive_message
  rw [receive_message_fuel, h]

/-- C6 (amended): a Soft pre-vote justification is verified against the
canonical main-vote bytes for round `self.r − 1` — the engine's current
round, not the round carried by the pre-vote message — and the message is
rejected with `InvalidMessage` exactly when that verification fails. -/
theorem check_soft_uses_engine_round {s : Abba} {sender : NodeId} {a : PreVoteAction}
    {σ : Signature}
    (hj : a.justification = .soft σ) (hr : 1 ≤ s.r)
    (hs : verify_share sender a.sig_share (pre_vote_bytes_to_sign a.round a.value) = true) :
    check_message s sender ⟨.preVote a⟩ =
      some (if verify_sig σ (main_vote_bytes_to_sign (s.r - 1) .abstain) then .ok ()
            else .error (.invalidMessage "invalid soft-vote justification")) := by
  unfold check_message
  dsimp only
  rw [hs, hj]
  simp only [if_true]
  rw [usizeSub_some hr]
  cases hv : verify_sig σ (main_vote_bytes_to_sign (s.r - 1) .abstain) <;> simp [hv]

/-! ### Concrete instances and traces

A four-party network (nodes 0, 1, 2, 3) with `pub_key_set.threshold() = 2`,
so `threshold() = 3 = n − t` for `n = 4`, `t = 1` — the setting of the
repository's tests.  The local engine belongs to node 0, the proposer is
node 1. -/

def test_pks : PublicKeySet := ⟨2⟩

def abba_init : Abba := Abba.new 0 1 test_pks

/-- A pre-vote message as a peer would produce it: the sender's own share
over the canonical pre-vote bytes. -/
def pre_vote_msg (round : Nat) (v : Value) (j : PreVoteJustification) (n : NodeId) : Message :=
  ⟨.preVote ⟨round, v, j, ⟨n, pre_vote_bytes_to_sign round v⟩⟩⟩

/-- A main-vote message as a peer would produce it. -/
def main_vote_msg (round : Nat) (v : MainVoteValue) (j : MainVoteJustification) (n : NodeId) :
    Message :=
  ⟨.mainVote ⟨round, v, j, ⟨n, main_vote_bytes_to_sign round v⟩⟩⟩

/-- The engine state after one `receive_message` call. -/
def step_state (s : Abba) (sender : NodeId) (msg : Message) : Abba :=
  match receive_message s sender msg with
  | some (_, s') => s'
  | none => s

/-- Round-1 zero pre-vote of node `n`. -/
def pvz (n : NodeId) : Message := pre_vote_msg 1 .zero .firstRoundZero n

/-- Aggregate over the round-1 zero pre-vote bytes (threshold shares exist in
the traces below). -/
def sig_pz : Signature := ⟨pre_vote_bytes_to_sign 1 .zero⟩

/-- Round-1 zero main-vote of node `n`, justified by the pre-vote aggregate. -/
def mvz (n : NodeId) : Message := main_vote_msg 1 .zero (.noAbstain sig_pz) n

/-- A valid VCBC `c-final` certificate for proposer 1 (digest 0). -/
def c_final_ok : VcbcMessage := ⟨1, .final 0 ⟨c_ready_bytes_to_sign 1 0⟩⟩

/-- Round-1 abstain main-vote of node `n`, justified by the conflicting
round-1 justifications — valid per `check_message`. -/
def abstain_mv (n : NodeId) : Message :=
  main_vote_msg 1 .abstain (.abstain .firstRoundZero (.firstRoundOne c_final_ok)) n

def abba_s1 : Abba := step_state abba_init 1 (pvz 1)
def abba_s2 : Abba := step_state abba_s1 2 (pvz 2)
def abba_s3 : Abba := step_state abba_s2 3 (pvz 3)
def abba_s4 : Abba := step_state abba_s3 1 (mvz 1)

/-- The engine after three zero pre-votes (which trigger its own zero
main-vote and advance it to round 2) and two more zero main-votes: it has
decided `Decision(1, Value(Zero), σ)`. -/
def abba_decided : Abba := step_state abba_s4 2 (mvz 2)

/-- `abba_decided` after node 3's (valid, admitted) abstain main-vote of
round 1. -/
def abba_overwritten : Abba := step_state abba_decided 3 (abstain_mv 3)

theorem reachable_abba_init : Reachable abba_init := .start 0 1 test_pks

theorem reachable_abba_decided : Reachable abba_decided :=
  .recv 2 (mvz 2)
    (.recv 1 (mvz 1)
      (.recv 3 (pvz 3)
        (.recv 2 (pvz 2)
          (.recv 1 (pvz 1) reachable_abba_init rfl) rfl) rfl) rfl) rfl

/-! ### Trace B: a two-round run ending in a round-2 soft pre-vote -/

/-- Round-1 one pre-vote of node `n` with the weak-validity justification. -/
def weak_pv1 (n : NodeId) : Message := pre_vote_msg 1 .one (.firstRoundOne c_final_ok) n

/-- Aggregate over the round-1 abstain main-vote bytes (threshold abstain
main-votes exist in trace B). -/
def sig_ab1 : Signature := ⟨main_vote_bytes_to_sign 1 .abstain⟩

/-- Round-2 one pre-vote of node `n` with the soft justification `σ_abstain`. -/
def soft_pv2 (n : NodeId) : Message := pre_vote_msg 2 .one (.soft sig_ab1) n

def abba_t1 : Abba := step_state abba_init 2 (weak_pv1 2)
def abba_t2 : Abba := step_state abba_t1 3 (pvz 3)
def abba_t3 : Abba := step_state abba_t2 1 (pvz 1)
def abba_t4 : Abba := step_state abba_t3 1 (abstain_mv 1)
def abba_t5 : Abba := step_state abba_t4 2 (abstain_mv 2)

/-- The engine in round 2 after a mixed round 1 (abstain main-votes) and two
round-2 soft pre-votes (its own and node 1's); one more soft pre-vote
completes the round-2 bucket. -/
def abba_t6 : Abba := step_state abba_t5 1 (soft_pv2 1)

/-- `abba_t6` after node 2's soft pre-vote: the bucket reached `threshold()`,
the engine broadcast its round-2 main-vote and advanced to round 3. -/
def abba_t7 : Abba := step_state abba_t6 2 (soft_pv2 2)

theorem reachable_abba_t6 : Reachable abba_t6 :=
  .recv 1 (soft_pv2 1)
    (.recv 2 (abstain_mv 2)
      (.recv 1 (abstain_mv 1)
        (.recv 1 (pvz 1)
          (.recv 3 (pvz 3)
            (.recv 2 (weak_pv1 2) reachable_abba_init rfl) rfl) rfl) rfl) rfl) rfl

/-! ### The claims -/

/-- C1 (code bug): `decided_value`, once `Some`, can be overwritten by a later
`MainVote`.  `abba_decided` is reachable and has decided
`Decision(1, Value(Zero), σ)`; the valid round-1 abstain main-vote of node 3
re-triggers the zero-threshold branch (`receive_message`, lines 147-161),
which rebuilds a decision from `action.value` and stores it, replacing the
old one with a different `DecisionAction` — and the broadcast of that
malformed decision fails against its own signature. -/
theorem decided_value_overwritten_by_later_main_vote :
    Reachable abba_decided ∧
    abba_decided.decided_value =
      some ⟨1, .value .zero, ⟨main_vote_bytes_to_sign 1 MainVoteValue.zero⟩⟩ ∧
    receive_message abba_decided 3 (abstain_mv 3) =
      some (.error (.invalidMessage "invalid signature"), abba_overwritten) ∧
    abba_overwritten.decided_value ≠ abba_decided.decided_value :=
  ⟨reachable_abba_decided, rfl, rfl, by decide⟩

/-- C2 (code bug): when the round-1 main-vote bucket holds exactly
`threshold()` `Value(Zero)` votes, the decision stored by the zero branch
carries `action.value` — the value of the triggering message (`Abstain`
here) — instead of `Zero`; its signature is the aggregate over the zero
main-vote bytes, so the stored decision does not even verify against its own
value. -/
theorem decision_value_copied_from_trigger_message :
    (List.filter (fun p => p.2.value == MainVoteValue.zero)
        ((abba_overwritten.round_main_votes.get? 0).getD [])).length = threshold abba_decided ∧
    receive_message abba_decided 3 (abstain_mv 3) =
      some (.error (.invalidMessage "invalid signature"), abba_overwritten) ∧
    Option.map (fun d => d.value) abba_overwritten.decided_value = some MainVoteValue.abstain ∧
    MainVoteValue.abstain ≠ MainVoteValue.zero :=
  ⟨rfl, rfl, rfl, by decide⟩

/-- The abstain decision an adversary can assemble from an honest abstain
aggregate: its signature verifies against the main-vote bytes for
`(1, Abstain)`, which is all `check_message` requires of a decision. -/
def abstain_decision : DecisionAction := ⟨1, .abstain, ⟨main_vote_bytes_to_sign 1 .abstain⟩⟩

/-- C3 (code bug): `check_message` accepts a `Decision` whose value is
`Abstain` (it only verifies the aggregate signature, without restricting the
value to `{Zero, One}`), and `receive_message` latches it into
`decided_value`. -/
theorem abstain_decision_accepted_and_latched :
    Reachable abba_init ∧
    receive_message abba_init 2 ⟨.decision abstain_decision⟩ =
      some (.ok (), { abba_init with decided_value := some abstain_decision }) ∧
    abstain_decision.value = MainVoteValue.abstain :=
  ⟨reachable_abba_init, rfl, rfl⟩

/-- C6 (counterexample): a round-2 pre-vote with a Soft justification whose
signature verifies against the main-vote bytes for
`(message round − 1, Abstain)` — exactly what the claim says is checked — is
nevertheless rejected by the engine at round 1, because `check_message`
verifies the Soft signature at `self.r − 1`, not `action.round − 1`
(line 441). -/
theorem soft_justification_round_counterexample :
    verify_sig sig_ab1 (main_vote_bytes_to_sign (2 - 1) .abstain) = true ∧
    Reachable abba_init ∧
    abba_init.r = 1 ∧
    receive_message abba_init 3 (soft_pv2 3) =
      some (.error (.invalidMessage "invalid soft-vote justification"), abba_init) :=
  ⟨rfl, reachable_abba_init, rfl, rfl⟩

/-- C8 (counterexample): an errored `receive_message` call that is not atomic.
Node 3's abstain main-vote is admitted into the round-1 bucket and overwrites
`decided_value` before the broadcast of the malformed decision fails, so the
call returns an error yet the state differs. -/
theorem receive_message_error_after_admission_mutates :
    Reachable abba_decided ∧
    receive_message abba_decided 3 (abstain_mv 3) =
      some (.error (.invalidMessage "invalid signature"), abba_overwritten) ∧
    abba_overwritten ≠ abba_decided :=
  ⟨reachable_abba_decided, rfl, by decide⟩

/-- A pre-vote whose signature share names node 2 but arrives from node 3:
`check_message` rejects it as an invalid share. -/
def bad_share_pre_vote : Message :=
  ⟨.preVote ⟨1, .zero, .firstRoundZero, ⟨2, pre_vote_bytes_to_sign 1 .zero⟩⟩⟩

/-- Witness for C8 (amended) at a concrete input: the share-verification
error leaves the fresh engine untouched. -/
theorem receive_message_check_error_atomic_witness :
    receive_message abba_init 3 bad_share_pre_vote =
      some (.error (.invalidMessage "invalid signature share"), abba_init) :=
  receive_message_check_error_atomic rfl

/-- C9 (counterexample): re-delivering an identical message can return an
error.  The soft pre-vote of node 2 completes the round-2 bucket, so the
first call succeeds and advances the engine to round 3; the identical second
delivery re-verifies the Soft justification at the new `self.r − 1 = 2` and
fails, returning `InvalidMessage` instead of `Ok` (the state is unchanged). -/
theorem duplicate_soft_pre_vote_second_delivery_rejected :
    Reachable abba_t6 ∧
    receive_message abba_t6 2 (soft_pv2 2) = some (.ok (), abba_t7) ∧
    abba_t6.r = 2 ∧ abba_t7.r = 3 ∧
    receive_message abba_t7 2 (soft_pv2 2) =
      some (.error (.invalidMessage "invalid soft-vote justification"), abba_t7) :=
  ⟨reachable_abba_t6, rfl, rfl, rfl, rfl⟩

/-- Witness for C9 (amended) at a concrete input: re-delivering node 1's
round-1 zero pre-vote returns `Ok` and leaves the state unchanged. -/
theorem receive_message_duplicate_witness :
    receive_message abba_s1 1 (pvz 1) = some (.ok (), abba_s1) :=
  @receive_message_duplicate abba_init abba_s1 1 (pvz 1) (.ok ()) rfl rfl

/-- C10: `receive_message` is total — it returns `some` outcome (an `Ok` or
an error, never the panic `none`) — for every engine state whose round
counter is at least 1 and every message whose round field is at least 1
(decisions touch no bucket); the bucket index `round − 1` is in bounds after
`add_message` grows the vector, and no `usize` subtraction underflows. -/
theorem receive_message_total {s : Abba} {sender : NodeId} {msg : Message}
    (hs : Reachable s) (hm : 1 ≤ min_round msg) :
    ∃ out, receive_message s sender msg = some out :=
  receive_fuel_isSome 8 s sender msg (reachable_r_pos hs) hm

/-- Witness for C10 at a concrete input. -/
theorem receive_message_total_witness :
    1 ≤ min_round (pvz 1) ∧
    ∃ out, receive_message abba_init 1 (pvz 1) = some out :=
  ⟨by decide, receive_message_total reachable_abba_init (by decide)⟩

/-- Witness for C6 (amended) at a concrete input. -/
theorem check_soft_uses_engine_round_witness :
    check_message abba_init 3 (soft_pv2 3) =
      some (if verify_sig sig_ab1 (main_vote_bytes_to_sign (abba_init.r - 1) .abstain) then .ok ()
            else .error (.invalidMessage "invalid soft-vote justification")) :=
  @check_soft_uses_engine_round abba_init 3
    ⟨2, .one, .soft sig_ab1, ⟨3, pre_vote_bytes_to_sign 2 .one⟩⟩ sig_ab1 rfl (by decide) rfl

/-- The tag of the local instance and a tag for another domain. -/
def tag_a : Tag := ⟨⟨"test-domain", 0⟩, 1⟩

def tag_b : Tag := ⟨⟨"another-domain", 0⟩, 1⟩

/-- Witness for C4 at concrete tags: the bytes differ and a signature over
the `tag_a` bytes does not verify against the `tag_b` bytes. -/
theorem tagged_bytes_domain_separation_witness :
    tag_a ≠ tag_b ∧
    verify_sig_tagged ⟨pre_vote_bytes_tagged tag_a 1 .zero⟩
      (pre_vote_bytes_tagged tag_b 1 .zero) = false :=
  ⟨by decide,
   (@tagged_bytes_domain_separation tag_a tag_b (by decide) 1 .zero .abstain).2.2.1
     ⟨pre_vote_bytes_tagged tag_a 1 .zero⟩ rfl⟩

/-- Witness for C5 at a concrete input: a message tagged for another domain
is rejected and the engine state is untouched. -/
theorem tag_mismatch_rejected_witness :
    receive_message_tagged ⟨tag_a, abba_init⟩ 2 ⟨tag_b, (pvz 2).action⟩ =
      some (.error (.invalidMessage "invalid tag"), ⟨tag_a, abba_init⟩) :=
  tag_mismatch_rejected (by decide)

/-- A weak-validity engine that has already latched the certificate of
`c_final_ok`. -/
def weak_state : AbbaW := ⟨some (0, ⟨c_ready_bytes_to_sign 1 0⟩), abba_init⟩

def weak_state_after : AbbaW := ⟨some (0, ⟨c_ready_bytes_to_sign 1 0⟩), abba_s1⟩

/-- Witness for C7 at a concrete input: the latched certificate survives a
`receive_message`. -/
theorem weak_validity_latch_witness :
    weak_state_after.weak_validity = some (0, ⟨c_ready_bytes_to_sign 1 0⟩) :=
  (@weak_validity_latch weak_state 1 (pvz 1) (.ok ()) weak_state_after rfl).1
    (0, ⟨c_ready_bytes_to_sign 1 0⟩) rfl

end SnConsensus
